/-
Verification of the Sonarr/Radarr auto-crop script (crop.py).

This file gives a shallow embedding of the script's data model and
operations and proves (or refutes) the specified properties about them.

Conventions of the embedding:
* Python values that may be an unset-environment-variable sentinel are
  modelled by `PyVal` (a string or the literal `False`).
* Numbers that flow through the script either as ints (pandas columns)
  or as strings (ffmpeg pipeline output) are modelled by `PyNum`.
* Side effects (subprocess invocations, log writes, prints, uncaught
  exceptions) are recorded as an explicit trace of `Ev` events; a run
  returns the trace together with an exit outcome.
* The `logging` module is configured at level INFO, so `.debug` calls
  write nothing and are not modelled as events; `.info` and `.warning`
  calls are.  A `.warning` call whose message has no percent
  placeholders but which is given an extra argument fails to format at
  emit time: the handler drops the record (it is never appended to the
  log file), which we record as `Ev.warnDropped`.
* exit(n) raises SystemExit(n); an uncaught exception terminates the
  interpreter with exit code 1, recorded as `Ev.traceback`.
-/
import Mathlib

/-! ### Data model -/

/-- One row of the manual-override CSV (columns Series, Season,
Horizontal, Vertical), as loaded by pandas. -/
structure ShowRow where
  series : String
  season : Int
  horizontal : Int
  vertical : Int
deriving DecidableEq

/-- A Python value read from the environment: either a string or the
sentinel `False` supplied as default by `os.getenv(variable, False)`. -/
inductive PyVal where
  | str (s : String)
  | pyFalse
deriving DecidableEq

/-- A crop dimension as it flows through the script: an int (from the
pandas override table) or a string (from the detection pipeline). -/
inductive PyNum where
  | int (n : Int)
  | str (s : String)
deriving DecidableEq

/-- Observable events of a run: log records, prints, subprocess
invocations and uncaught exceptions. -/
inductive Ev where
  | info (m : String)
  | warn (m : String)
  | warnDropped
  | printed (m : String)
  | traceback
  | wslRun
  | probeRun
  | detectRun
  | deleteFile (p : PyVal)
  | transcode (src dst : PyVal) (w h : PyNum)
deriving DecidableEq

/-- Parse a nonempty digit string as a natural number; any non-digit
character is a ValueError (`none`). -/
def parseNatChars : List Char → Option Nat
  | [] => none
  | cs =>
    cs.foldl
      (fun acc c =>
        match acc with
        | none => none
        | some n => if c.isDigit then some (n * 10 + (c.toNat - 48)) else none)
      (some 0)

/-- Python's `int()` on a string: an optional sign followed by digits
(surrounding whitespace, also accepted by Python, is not modelled);
anything else raises ValueError (`none`). -/
def parseIntChars : List Char → Option Int
  | [] => none
  | '-' :: cs => (parseNatChars cs).map (fun n => -(n : Int))
  | '+' :: cs => (parseNatChars cs).map (fun n => (n : Int))
  | cs => (parseNatChars cs).map (fun n => (n : Int))

/-- `int(v)` on an environment value: `int(False) = 0`, `int(s)` parses
the string and raises ValueError (modelled as `none`) otherwise. -/
def pyInt : PyVal → Option Int
  | PyVal.pyFalse => some 0
  | PyVal.str s => parseIntChars s.data

/-- `int(v)` on a crop dimension: the identity on ints, string parsing
(ValueError as `none`) on strings. -/
def pyIntNum : PyNum → Option Int
  | PyNum.int n => some n
  | PyNum.str s => parseIntChars s.data

/-- `str.split(sep)` for a single-character separator, on the
character list. -/
def splitCharsOn (sep : Char) : List Char → List (List Char)
  | [] => [[]]
  | c :: cs =>
    match splitCharsOn sep cs with
    | [] => [[c]]
    | g :: gs => if c = sep then [] :: g :: gs else (c :: g) :: gs

/-- Python's `crop.split(":")`. -/
def splitColon (s : String) : List String :=
  (splitCharsOn ':' s.data).map (fun g => ⟨g⟩)

/-- Truthiness of a Python string: nonempty strings are truthy.  The
dispatch in `sonarr_main` tests the literal `"sonarr_eventtype"`. -/
def pythonTruthy (s : String) : Bool := s ≠ ""

/-- `events_vars = {v: os.getenv(v, False) for v in variables}`:
environment lookup with default `False`. -/
def events_vars (env : String → Option String) (v : String) : PyVal :=
  match env v with
  | some s => PyVal.str s
  | none => PyVal.pyFalse

/-! ### The detection shell pipeline

`get_crop_parameters` runs (inside one bash subprocess)

  ffmpeg ... cropdetect ... | grep -o crop=.* | sort -bh | uniq -c
    | sort -bh | tail -n1 | grep -o crop=.* | sed 's/.*crop=//g'

Every candidate line starts with the constant prefix `crop=`, so the
first `sort -bh` finds no leading number and orders the lines by its
last-resort byte comparison, i.e. lexicographically; the constant
prefix does not affect that order, so we model candidates as the
strings following `crop=` (of shape `W:H:X:Y`).  `uniq -c` replaces
adjacent runs by a count-prefixed line; the second `sort -bh` orders by
the count and, for equal counts (equally padded), by the last-resort
byte comparison of the rest of the line, i.e. lexicographically by
candidate.  `tail -n1` keeps the final line and `sed` strips everything
up to `crop=`, leaving the winning candidate. -/

/-- Byte-wise (lexicographic) comparison of character lists, the
last-resort line comparison done by GNU sort. -/
def charsLe : List Char → List Char → Bool
  | [], _ => true
  | _ :: _, [] => false
  | a :: as, b :: bs => if a < b then true else if b < a then false else charsLe as bs

/-- Byte-wise comparison of strings. -/
def strLe (a b : String) : Bool := charsLe a.data b.data

/-- The string order as a relation. -/
def strLeP (a b : String) : Prop := strLe a b = true

instance : DecidableRel strLeP := fun a b =>
  inferInstanceAs (Decidable (strLe a b = true))

/-- Order used by the second `sort -bh` on `uniq -c` output: by count,
with equal counts decided by the byte comparison of the rest of the
line, i.e. of the candidate string. -/
def lineLe (a b : Nat × String) : Prop :=
  a.1 < b.1 ∨ (a.1 = b.1 ∧ strLe a.2 b.2 = true)

instance : DecidableRel lineLe := fun a b =>
  inferInstanceAs (Decidable (a.1 < b.1 ∨ (a.1 = b.1 ∧ strLe a.2 b.2 = true)))

/-- The first `sort -bh`: lexicographic sort of the candidate lines. -/
def sortLex (l : List String) : List String := List.insertionSort strLeP l

/-- `uniq -c`: replace each run of adjacent equal lines by the pair of
its length and its line, preserving the order of the runs. -/
def uniqCount : List String → List (Nat × String)
  | [] => []
  | x :: xs =>
    match uniqCount xs with
    | [] => [(1, x)]
    | (n, y) :: rest => if x = y then (n + 1, y) :: rest else (1, x) :: (n, y) :: rest

/-- The second `sort -bh` on the counted lines. -/
def sortByCount (l : List (Nat × String)) : List (Nat × String) :=
  List.insertionSort lineLe l

/-- The whole shell pipeline after cropdetect: the candidate kept on
stdout, or `none` when there was no candidate at all (`tail` of an
empty stream is empty). -/
def shellPipe (cands : List String) : Option String :=
  (sortByCount (uniqCount (sortLex cands))).getLast?.map Prod.snd

/-- `max(possible_crops, key=possible_crops.count)`: Python's `max`
keeps the first element attaining the maximal key and raises ValueError
(modelled as `none`) on an empty list. -/
def pyMaxCount (l : List String) : Option String :=
  l.foldl
    (fun acc x =>
      match acc with
      | none => some x
      | some m => if l.count x > l.count m then some x else acc)
    none

/-- The value-level behaviour of `get_crop_parameters` on the candidate
lines produced by cropdetect: run the shell pipeline, split the stdout
into lines (one line or none), take the Python max, and unpack
`width, height, _, _ = crop.split(":")` (ValueError, modelled as
`none`, unless there are exactly four fields). -/
def get_crop_parameters (cands : List String) : Option (String × String) :=
  let possible_crops : List String :=
    match shellPipe cands with
    | none => []
    | some r => [r]
  match pyMaxCount possible_crops with
  | none => none
  | some crop =>
    match splitColon crop with
    | [w, h, _, _] => some (w, h)
    | _ => none

/-- Modelled from the claim's words, for comparison with the code: keep
the candidate list in its reported order, sort it stably by occurrence
count (insertion sort is stable), and pick the tail. -/
def claim_stable_sort_tail_pick (cands : List String) : Option String :=
  (List.insertionSort (fun a b => cands.count a ≤ cands.count b) cands).getLast?

/-! ### Effectful components

Each component returns its event trace together with either a normal
result or the exit code it terminated the process with. -/

/-- The global tolerance `rel_tol = 18`. -/
def rel_tol : Int := 18

/-- The resolution comparison of `check_video_resolution`:
`abs(int(width) - current_width) < rel_tol and
 abs(int(height) - current_height) < rel_tol` (coercions already
applied). -/
def withinTolerance (cw ch w h tol : Int) : Bool :=
  decide (|w - cw| < tol) && decide (|h - ch| < tol)

/-- Outcome of the ffprobe subprocess: its return code and, when it
succeeds, the parsed width/height of the first video stream. -/
structure ProbeWorld where
  probeRC : Nat
  cw : Int
  ch : Int

/-- `check_video_resolution(video_path, width, height)`: run ffprobe;
on a nonzero return code call `error_log.warning` with a stray second
argument (the record fails to format and is dropped) and exit(1);
otherwise parse the output, log a debug line (suppressed at level
INFO), coerce the target dimensions with `int()` (ValueError if a
string fails to parse) and compare against `rel_tol`. -/
def check_video_resolution (pw : ProbeWorld) (video_path : PyVal) (width height : PyNum) :
    List Ev × Except Nat Bool :=
  if pw.probeRC > 0 then
    ([Ev.probeRun, Ev.warnDropped], Except.error 1)
  else
    match pyIntNum width, pyIntNum height with
    | some w, some h =>
      ([Ev.probeRun], Except.ok (withinTolerance pw.cw pw.ch w h rel_tol))
    | _, _ => ([Ev.probeRun, Ev.traceback], Except.error 1)

/-- Return codes of the two subprocesses run by `crop_video`. -/
structure CropWorld where
  deleteRC : Nat
  ffmpegRC : Nat

/-- `crop_video(source_path, destination_path, width, height)`: first
delete the destination with powershell `del`; a nonzero return code is
logged as a warning and exits(1) before ffmpeg is ever run.  Then run
the ffmpeg crop reading the source and writing the destination; a
nonzero return code is logged as a warning and exits(1), success is
logged as info and the function returns. -/
def crop_video (cw : CropWorld) (source_path destination_path : PyVal) (width height : PyNum) :
    List Ev × Option Nat :=
  if cw.deleteRC > 0 then
    ([Ev.deleteFile destination_path, Ev.warn "Failed to delete existing file"], some 1)
  else if cw.ffmpegRC > 0 then
    ([Ev.deleteFile destination_path,
      Ev.transcode source_path destination_path width height,
      Ev.warn "cmd failed during crop_video"], some 1)
  else
    ([Ev.deleteFile destination_path,
      Ev.transcode source_path destination_path width height,
      Ev.info "successfully cropped"], none)

/-- Outcome of the cropdetect subprocess: the return code of the bash
pipeline and the candidate lines emitted by cropdetect (the strings
after each `crop=`). -/
structure DetectWorld where
  detectRC : Nat
  candidates : List String

/-- The effectful `get_crop_parameters(video_path)`: convert the path
with wslpath (return code unchecked), run the detection pipeline; a
nonzero return code is reported with `print` (not a log record) and
exits(1); then take the most repeated candidate and unpack it, an
empty candidate list making `max` raise ValueError (traceback). -/
def get_crop_parameters_run (dw : DetectWorld) (video_path : PyVal) :
    List Ev × Except Nat (String × String) :=
  if dw.detectRC > 0 then
    ([Ev.wslRun, Ev.detectRun, Ev.printed "cmd failed during get_crop_parameters"],
      Except.error 1)
  else
    match get_crop_parameters dw.candidates with
    | some wh => ([Ev.wslRun, Ev.detectRun], Except.ok wh)
    | none => ([Ev.wslRun, Ev.detectRun, Ev.traceback], Except.error 1)

/-! ### The orchestrator -/

/-- The whole external world of one invocation: the process
environment, the two override tables, the filesystem, and the outcome
of each subprocess. -/
structure SonarrWorld where
  env : String → Option String
  show_db : List ShowRow
  file_exists : PyVal → Bool
  probe : ProbeWorld
  detect : DetectWorld
  cropw : CropWorld

/-- `name == row` comparison done by pandas on the Series column: a
string compares by equality, the `False` sentinel matches no string. -/
def pyEqStr (name : PyVal) (cell : String) : Bool :=
  match name with
  | PyVal.str s => s == cell
  | PyVal.pyFalse => false

/-- The pandas filter
`show_database[(Series == name) & (Season == int(season))]`
with the season already coerced. -/
def lookup_rows (db : List ShowRow) (name : PyVal) (sn : Int) : List ShowRow :=
  db.filter (fun r => pyEqStr name r.series && r.season == sn)

/-- The override lookup as a resolver: the single matching row's
rectangle, or `none` when zero or several rows match (the code tests
`len(database_results) == 1` and indexes `.values[0]`). -/
def resolve_override (db : List ShowRow) (name : PyVal) (sn : Int) : Option (Int × Int) :=
  match lookup_rows db name sn with
  | [r] => some (r.horizontal, r.vertical)
  | _ => none

/-- Lines 272-301 of `sonarr_main`: the single-row override branch.
Check the current resolution against the row's rectangle (the pandas
ints), print the outcome, and either skip or crop. -/
def overrideBranch (w : SonarrWorld) (file_path source_path : PyVal) (r : ShowRow) :
    List Ev × Option Nat :=
  match check_video_resolution w.probe source_path (PyNum.int r.horizontal) (PyNum.int r.vertical) with
  | (ev1, Except.error c) => (ev1, some c)
  | (ev1, Except.ok already_croped) =>
    let evp := ev1 ++ [Ev.printed "already_croped"]
    if already_croped then
      (evp ++ [Ev.info "Video already in the specified resolution. Skipping..."], none)
    else
      let (ev2, res2) :=
        crop_video w.cropw source_path file_path (PyNum.int r.horizontal) (PyNum.int r.vertical)
      (evp ++ [Ev.info "Begining crop video!"] ++ ev2, res2)

/-- Lines 313-325 of `sonarr_main`: after detection succeeded with the
string dimensions `width`/`height`, check the current resolution
against them and crop unless already cropped.  (`evd` is the event
prefix accumulated by the detection step.) -/
def autoBranchChecked (w : SonarrWorld) (file_path source_path : PyVal)
    (evd : List Ev) (width height : String) : List Ev × Option Nat :=
  match check_video_resolution w.probe source_path (PyNum.str width) (PyNum.str height) with
  | (ev1, Except.error c) => (evd ++ ev1, some c)
  | (ev1, Except.ok already_croped) =>
    if !already_croped then
      let (ev2, res2) :=
        crop_video w.cropw source_path file_path (PyNum.str width) (PyNum.str height)
      (evd ++ ev1 ++ ev2, res2)
    else
      (evd ++ ev1, none)

/-- Lines 303-325 of `sonarr_main`: the automatic-detection branch.
Detect the crop parameters (the strings from the pipeline), check the
current resolution against them, and crop unless already cropped. -/
def autoBranch (w : SonarrWorld) (file_path source_path : PyVal) : List Ev × Option Nat :=
  match get_crop_parameters_run w.detect source_path with
  | (evd, Except.error c) => (evd, some c)
  | (evd, Except.ok (width, height)) => autoBranchChecked w file_path source_path evd width height

/-- Lines 266-330 of `sonarr_main`: path validation, override vs
automatic target resolution, comparison, and crop.  `database_results`
is the filtered table; the override branch runs exactly when it has
one row. -/
def processVideo (w : SonarrWorld) (file_path source_path : PyVal)
    (database_results : List ShowRow) : List Ev × Option Nat :=
  if w.file_exists file_path && w.file_exists source_path then
    match database_results with
    | [r] => overrideBranch w file_path source_path r
    | _ => autoBranch w file_path source_path
  else
    ([Ev.warn "Unable to find specified file(s)"], some 1)

/-- The Sonarr branch body after the season has been coerced to the
integer `sn`: filter the override table, log the event, and process
the video. -/
def sonarrBodyWithSeason (w : SonarrWorld) (sn : Int) : List Ev × Option Nat :=
  let file_path := events_vars w.env "sonarr_episodefile_path"
  let source_path := events_vars w.env "sonarr_episodefile_sourcepath"
  let name := events_vars w.env "sonarr_series_title"
  let (evs, res) := processVideo w file_path source_path (lookup_rows w.show_db name sn)
  (Ev.info "New show added" :: evs, res)

/-- The Sonarr branch body (lines 236-251 followed by the shared
processing): read the event variables, coerce the season with `int()`
(ValueError terminates with a traceback), filter the override table,
log the event, and process the video. -/
def sonarr_branch_body (w : SonarrWorld) : List Ev × Option Nat :=
  match pyInt (events_vars w.env "sonarr_episodefile_seasonnumber") with
  | none => ([Ev.traceback], some 1)
  | some sn => sonarrBodyWithSeason w sn

/-- The Radarr branch body (lines 253-264): it indexes the TV override
table with the nonexistent column `Movie`
(`movie_database[show_database["Movie"] == name]`), so it terminates
with a KeyError traceback before reaching its own logging. -/
def radarr_branch_body (_w : SonarrWorld) : List Ev × Option Nat :=
  ([Ev.traceback], some 1)

/-- `sonarr_main()`: the event dispatch tests the truthiness of the
string literals `"sonarr_eventtype"` and `"radarr_eventtype"`, not the
environment; if neither branch ran, `file_path` would be unbound
(NameError). -/
def sonarr_main (w : SonarrWorld) : List Ev × Option Nat :=
  if pythonTruthy "sonarr_eventtype" then
    sonarr_branch_body w
  else if pythonTruthy "radarr_eventtype" then
    radarr_branch_body w
  else
    ([Ev.traceback], some 1)

/-- The `"Test" in EventTypes` check of the main block, on the raw
environment (no default). -/
def testInvocation (w : SonarrWorld) : Bool :=
  (w.env "sonarr_eventtype" == some "Test") || (w.env "radarr_eventtype" == some "Test")

/-- The main block: a Test event logs and exits 0; otherwise
`sonarr_main()` runs, and if it returns normally a final info line is
logged and the interpreter exits 0. -/
def script_main (w : SonarrWorld) : List Ev × Nat :=
  if testInvocation w then
    ([Ev.info "Test has been ran successfully."], 0)
  else
    match sonarr_main w with
    | (evs, some c) => (evs, c)
    | (evs, none) => (evs ++ [Ev.info "Completed script!"], 0)

/-! ### Event classifiers -/

/-- The path a file-deleting event targets. -/
def deletesPath : Ev → Option PyVal
  | Ev.deleteFile p => some p
  | _ => none

/-- The path a file-writing event targets (ffmpeg writes its output
argument). -/
def writesPath : Ev → Option PyVal
  | Ev.transcode _ d _ _ => some d
  | _ => none

/-- The path a transcode reads as input. -/
def readsPath : Ev → Option PyVal
  | Ev.transcode s _ _ _ => some s
  | _ => none

/-- Events that mutate the filesystem (delete or write a file). -/
def mutatesFile : Ev → Bool
  | Ev.deleteFile _ => true
  | Ev.transcode _ _ _ _ => true
  | _ => false

/-- Whether an event is a transcode invocation. -/
def isTranscodeEv : Ev → Bool
  | Ev.transcode _ _ _ _ => true
  | _ => false

/-- Whether an event is a successfully written warning-level record. -/
def isWarnEv : Ev → Bool
  | Ev.warn _ => true
  | _ => false

/-! ### Concrete inputs used to evaluate the model -/

/-- What it means to be the candidate the pipeline selects: a candidate
of maximal occurrence count, byte-wise greatest among the candidates
tied at that count. -/
def pipeWinner (cands : List String) (r : String) : Prop :=
  r ∈ cands ∧ (∀ c ∈ cands, cands.count c ≤ cands.count r) ∧
    (∀ c ∈ cands, cands.count c = cands.count r → strLe c r = true)

/-- A detection run whose two distinct candidates tie on the count and
whose later-reported candidate is byte-wise smaller. -/
def tieCands : List String :=
  ["1920:816:0:132", "1920:816:0:132", "1920:800:0:140", "1920:800:0:140"]

/-- An environment for a non-Test Sonarr event about the series A,
season 2. -/
def envA : String → Option String := fun v =>
  if v = "sonarr_eventtype" then some "Download"
  else if v = "sonarr_series_title" then some "A"
  else if v = "sonarr_episodefile_seasonnumber" then some "2"
  else none

/-- A world in which the override table has the single row (A, 2,
1920, 800) and the source already has resolution 1920x800. -/
def overrideHitWorld : SonarrWorld :=
  ⟨envA, [⟨"A", 2, 1920, 800⟩], fun _ => true, ⟨0, 1920, 800⟩, ⟨0, []⟩, ⟨0, 0⟩⟩

/-- A world with an empty override table in which detection reports a
single candidate matching the source resolution 1920x800. -/
def autoHitWorld : SonarrWorld :=
  ⟨envA, [], fun _ => true, ⟨0, 1920, 800⟩, ⟨0, ["1920:800:0:140"]⟩, ⟨0, 0⟩⟩

/-- A world with an empty override table in which the detection
pipeline produces no candidate at all: `max` raises ValueError and the
run dies with a traceback, writing no warning-level record. -/
def detectEmptyWorld : SonarrWorld :=
  ⟨envA, [], fun _ => true, ⟨0, 1920, 800⟩, ⟨0, []⟩, ⟨0, 0⟩⟩

/-! ### Order-theoretic facts about the pipeline's comparisons -/

theorem charsLe_total (as : List Char) : ∀ bs, charsLe as bs = true ∨ charsLe bs as = true := by
  induction as with
  | nil => intro bs; exact Or.inl rfl
  | cons a as ih =>
    intro bs
    cases bs with
    | nil => exact Or.inr rfl
    | cons b bs =>
      by_cases hab : a < b
      · left; simp [charsLe, hab]
      · by_cases hba : b < a
        · right; simp [charsLe, hba]
        · rcases ih bs with h | h
          · left; simp [charsLe, hab, hba, h]
          · right; simp [charsLe, hab, hba, h]

theorem charsLe_trans (as : List Char) :
    ∀ bs cs, charsLe as bs = true → charsLe bs cs = true → charsLe as cs = true := by
  induction as with
  | nil => intro bs cs _ _; rfl
  | cons a as ih =>
    intro bs cs h1 h2
    cases bs with
    | nil => simp [charsLe] at h1
    | cons b bs =>
      cases cs with
      | nil => simp [charsLe] at h2
      | cons c cs =>
        simp only [charsLe] at h1 h2 ⊢
        by_cases hab : a < b
        · by_cases hbc : b < c
          · simp [lt_trans hab hbc]
          · by_cases hcb : c < b
            · simp [hbc, hcb] at h2
            · have hbceq : b = c := le_antisymm (not_lt.mp hcb) (not_lt.mp hbc)
              simp [hbceq ▸ hab]
        · by_cases hba : b < a
          · simp [hab, hba] at h1
          · have habeq : a = b := le_antisymm (not_lt.mp hba) (not_lt.mp hab)
            simp only [if_neg hab, if_neg hba] at h1
            by_cases hbc : b < c
            · simp [habeq ▸ hbc]
            · by_cases hcb : c < b
              · simp [hbc, hcb] at h2
              · have hbceq : b = c := le_antisymm (not_lt.mp hcb) (not_lt.mp hbc)
                simp only [if_neg hbc, if_neg hcb] at h2
                have hac : ¬ a < c := hbceq ▸ habeq ▸ lt_irrefl a
                have hca : ¬ c < a := hbceq ▸ habeq ▸ lt_irrefl a
                simp [hac, hca, ih bs cs h1 h2]

theorem charsLe_antisymm (as : List Char) :
    ∀ bs, charsLe as bs = true → charsLe bs as = true → as = bs := by
  induction as with
  | nil =>
    intro bs _ h2
    cases bs with
    | nil => rfl
    | cons b bs => simp [charsLe] at h2
  | cons a as ih =>
    intro bs h1 h2
    cases bs with
    | nil => simp [charsLe] at h1
    | cons b bs =>
      simp only [charsLe] at h1 h2
      by_cases hab : a < b
      · simp [hab, lt_asymm hab] at h2
      · by_cases hba : b < a
        · simp [hab, hba] at h1
        · have habeq : a = b := le_antisymm (not_lt.mp hba) (not_lt.mp hab)
          simp only [if_neg hab, if_neg hba] at h1
          simp only [if_neg hba, if_neg hab] at h2
          rw [habeq, ih bs h1 h2]

theorem strLe_antisymm {a b : String} (h1 : strLe a b = true) (h2 : strLe b a = true) :
    a = b := by
  obtain ⟨da⟩ := a
  obtain ⟨db⟩ := b
  have : da = db := charsLe_antisymm da db h1 h2
  rw [this]

instance : IsTotal String strLeP :=
  ⟨fun a b => charsLe_total a.data b.data⟩

instance : IsTrans String strLeP :=
  ⟨fun a b c h1 h2 => charsLe_trans a.data b.data c.data h1 h2⟩

instance : IsTotal (Nat × String) lineLe := by
  constructor
  intro a b
  rcases Nat.lt_trichotomy a.1 b.1 with h | h | h
  · exact Or.inl (Or.inl h)
  · rcases charsLe_total a.2.data b.2.data with hs | hs
    · exact Or.inl (Or.inr ⟨h, hs⟩)
    · exact Or.inr (Or.inr ⟨h.symm, hs⟩)
  · exact Or.inr (Or.inl h)

instance : IsTrans (Nat × String) lineLe := by
  constructor
  intro a b c h1 h2
  rcases h1 with h1 | ⟨h1e, h1s⟩
  · rcases h2 with h2 | ⟨h2e, _⟩
    · exact Or.inl (lt_trans h1 h2)
    · exact Or.inl (h2e ▸ h1)
  · rcases h2 with h2 | ⟨h2e, h2s⟩
    · exact Or.inl (h1e ▸ h2)
    · exact Or.inr ⟨h1e.trans h2e, charsLe_trans a.2.data b.2.data c.2.data h1s h2s⟩

/-! ### Facts about `uniq -c` on sorted input -/

theorem strLe_refl (a : String) : strLe a a = true := by
  unfold strLe
  induction a.data with
  | nil => rfl
  | cons c cs ih => simp [charsLe, lt_irrefl, ih]

theorem uniqCount_cons (x : String) (xs : List String) :
    ∃ n rest, uniqCount (x :: xs) = (n, x) :: rest := by
  cases h : uniqCount xs with
  | nil => exact ⟨1, [], by simp [uniqCount, h]⟩
  | cons p rest =>
    cases p with
    | mk n y =>
      by_cases hxy : x = y
      · subst hxy
        exact ⟨n + 1, rest, by simp [uniqCount, h]⟩
      · exact ⟨1, (n, y) :: rest, by simp [uniqCount, h, hxy]⟩

theorem uniqCount_eq_nil {l : List String} : uniqCount l = [] ↔ l = [] := by
  cases l with
  | nil => simp [uniqCount]
  | cons x xs =>
    obtain ⟨n, rest, hr⟩ := uniqCount_cons x xs
    simp [hr]

theorem snd_mem_of_mem_uniqCount :
    ∀ (l : List String) (p : Nat × String), p ∈ uniqCount l → p.2 ∈ l := by
  intro l
  induction l with
  | nil => simp [uniqCount]
  | cons x xs ih =>
    intro p hp
    simp only [uniqCount] at hp
    split at hp
    · rename_i heq
      rw [List.mem_singleton] at hp
      subst hp
      exact List.mem_cons_self x xs
    · rename_i n y rest heq
      split at hp
      · rename_i hxy
        subst hxy
        rcases List.mem_cons.mp hp with h | h
        · subst h
          exact List.mem_cons_self x xs
        · have : p ∈ uniqCount xs := by rw [heq]; exact List.mem_cons_of_mem _ h
          exact List.mem_cons_of_mem x (ih p this)
      · rcases List.mem_cons.mp hp with h | h
        · subst h
          exact List.mem_cons_self x xs
        · have : p ∈ uniqCount xs := by rw [heq]; exact h
          exact List.mem_cons_of_mem x (ih p this)

theorem exists_mem_uniqCount :
    ∀ (l : List String) (x : String), x ∈ l → ∃ n, (n, x) ∈ uniqCount l := by
  intro l
  induction l with
  | nil => simp
  | cons y ys ih =>
    intro x hx
    rcases List.mem_cons.mp hx with h | h
    · subst h
      obtain ⟨n, rest, hr⟩ := uniqCount_cons x ys
      exact ⟨n, by rw [hr]; exact List.mem_cons_self _ _⟩
    · obtain ⟨n, hn⟩ := ih x h
      cases hys : uniqCount ys with
      | nil => rw [hys] at hn; cases hn
      | cons q rest =>
        cases q with
        | mk m z =>
          by_cases hyz : y = z
          · subst hyz
            have huc : uniqCount (y :: ys) = (m + 1, y) :: rest := by
              simp [uniqCount, hys]
            rw [hys] at hn
            rcases List.mem_cons.mp hn with h2 | h2
            · have hxy : x = y := congrArg Prod.snd h2
              subst hxy
              exact ⟨m + 1, by rw [huc]; exact List.mem_cons_self _ _⟩
            · exact ⟨n, by rw [huc]; exact List.mem_cons_of_mem _ h2⟩
          · have huc : uniqCount (y :: ys) = (1, y) :: (m, z) :: rest := by
              simp [uniqCount, hys, hyz]
            rw [hys] at hn
            exact ⟨n, by rw [huc]; exact List.mem_cons_of_mem _ hn⟩

/-- Distinct snd components of `uniq -c` output on a sorted list:
later entries are strictly greater. -/
theorem uniqCount_pairwise :
    ∀ (l : List String), l.Sorted strLeP →
      (uniqCount l).Pairwise (fun a b => strLeP a.2 b.2 ∧ a.2 ≠ b.2) := by
  intro l
  induction l with
  | nil => simp [uniqCount]
  | cons x xs ih =>
    intro hs
    have hx : ∀ b ∈ xs, strLeP x b := List.rel_of_sorted_cons hs
    have hs' : xs.Sorted strLeP := hs.of_cons
    have ihp := ih hs'
    cases hys : uniqCount xs with
    | nil =>
      have : uniqCount (x :: xs) = [(1, x)] := by simp [uniqCount, hys]
      rw [this]
      simp
    | cons q rest =>
      cases q with
      | mk m z =>
        rw [hys] at ihp
        have hz : z ∈ xs := snd_mem_of_mem_uniqCount xs (m, z) (by rw [hys]; exact List.mem_cons_self _ _)
        by_cases hxz : x = z
        · subst hxz
          have huc : uniqCount (x :: xs) = (m + 1, x) :: rest := by
            simp [uniqCount, hys]
          rw [huc]
          rw [List.pairwise_cons] at ihp ⊢
          exact ⟨fun b hb => ihp.1 b hb, ihp.2⟩
        · have huc : uniqCount (x :: xs) = (1, x) :: (m, z) :: rest := by
            simp [uniqCount, hys, hxz]
          rw [huc]
          rw [List.pairwise_cons]
          constructor
          · intro b hb
            rcases List.mem_cons.mp hb with h2 | h2
            · subst h2
              exact ⟨hx z hz, hxz⟩
            · have hb2 : b.2 ∈ xs := snd_mem_of_mem_uniqCount xs b (by rw [hys]; exact List.mem_cons_of_mem _ h2)
              refine ⟨hx b.2 hb2, ?_⟩
              intro hxb
              have hzb := (List.pairwise_cons.mp ihp).1 b h2
              have hxb' : x = b.2 := hxb
              have hzx : strLeP z x := by rw [hxb']; exact hzb.1
              exact hxz (strLe_antisymm (hx z hz) hzx)
          · exact ihp

/-- On a sorted list, the count attached by `uniq -c` is the total
number of occurrences. -/
theorem uniqCount_count :
    ∀ (l : List String), l.Sorted strLeP →
      ∀ p ∈ uniqCount l, p.1 = l.count p.2 := by
  intro l
  induction l with
  | nil => simp [uniqCount]
  | cons x xs ih =>
    intro hs p hp
    have hx : ∀ b ∈ xs, strLeP x b := List.rel_of_sorted_cons hs
    have hs' : xs.Sorted strLeP := hs.of_cons
    have hnotin : ∀ z, z ∈ xs → strLeP z x → z = x := by
      intro z hz hzx
      exact strLe_antisymm (hx z hz) hzx ▸ rfl
    cases hys : uniqCount xs with
    | nil =>
      have hxs : xs = [] := uniqCount_eq_nil.mp hys
      subst hxs
      have : uniqCount [x] = [(1, x)] := by simp [uniqCount]
      rw [this] at hp
      rw [List.mem_singleton] at hp
      subst hp
      simp
    | cons q rest =>
      cases q with
      | mk m z =>
        have hpxs := uniqCount_pairwise xs hs'
        rw [hys] at hpxs
        have hz : z ∈ xs := snd_mem_of_mem_uniqCount xs (m, z) (by rw [hys]; exact List.mem_cons_self _ _)
        have hxnotmem : x ≠ z → x ∉ xs := by
          intro hxz hmem
          obtain ⟨n, hn⟩ := exists_mem_uniqCount xs x hmem
          rw [hys] at hn
          rcases List.mem_cons.mp hn with h2 | h2
          · exact hxz (congrArg Prod.snd h2)
          · have hrel := (List.pairwise_cons.mp hpxs).1 (n, x) h2
            exact hxz (strLe_antisymm (hx z hz) hrel.1)
        by_cases hxz : x = z
        · subst hxz
          have huc : uniqCount (x :: xs) = (m + 1, x) :: rest := by
            simp [uniqCount, hys]
          rw [huc] at hp
          rcases List.mem_cons.mp hp with h2 | h2
          · subst h2
            have hmz : (m, x) ∈ uniqCount xs := by rw [hys]; exact List.mem_cons_self _ _
            have hmx : m = List.count x xs := ih hs' (m, x) hmz
            show m + 1 = List.count x (x :: xs)
            rw [List.count_cons_self]
            omega
          · have hmem : p ∈ uniqCount xs := by rw [hys]; exact List.mem_cons_of_mem _ h2
            have hcnt := ih hs' p hmem
            have hrel := (List.pairwise_cons.mp hpxs).1 p h2
            have hne : p.2 ≠ x := fun he => hrel.2 he.symm
            rw [List.count_cons_of_ne hne]
            exact hcnt
        · have huc : uniqCount (x :: xs) = (1, x) :: (m, z) :: rest := by
            simp [uniqCount, hys, hxz]
          rw [huc] at hp
          rcases List.mem_cons.mp hp with h2 | h2
          · subst h2
            simp only [List.count_cons_self]
            have : x ∉ xs := hxnotmem hxz
            rw [List.count_eq_zero.mpr this]
          · have hmem : p ∈ uniqCount xs := by rw [hys]; exact h2
            have hcnt := ih hs' p hmem
            have hne : p.2 ≠ x := by
              intro he
              exact hxnotmem hxz (he ▸ snd_mem_of_mem_uniqCount xs p hmem)
            rw [List.count_cons_of_ne hne]
            exact hcnt

/-! ### What the tail of the sorted count list is -/

theorem pairwise_getLast_rel {α : Type} {r : α → α → Prop} :
    ∀ (l : List α), l.Pairwise r → ∀ m, l.getLast? = some m → ∀ x ∈ l, x = m ∨ r x m := by
  intro l
  induction l with
  | nil => intro _ m hm; cases hm
  | cons a t ih =>
    intro hp m hm x hx
    cases t with
    | nil =>
      have hma : m = a := by
        have : (some a : Option α) = some m := hm
        exact (Option.some_inj.mp this).symm
      rcases List.mem_singleton.mp hx with h
      exact Or.inl (h.trans hma.symm)
    | cons b t2 =>
      have hm' : (b :: t2).getLast? = some m := by
        rw [← List.getLast?_cons_cons]
        exact hm
      rcases List.mem_cons.mp hx with h | h
      · subst h
        have hmmem : m ∈ b :: t2 := List.mem_of_mem_getLast? hm'
        exact Or.inr ((List.pairwise_cons.mp hp).1 m hmmem)
      · exact ih hp.of_cons m hm' x h

/-- The candidate the shell pipeline keeps is one of the candidates, it
attains the maximal occurrence count, and among the candidates tied at
the maximal count it is the byte-wise greatest. -/
theorem shellPipe_spec (cands : List String) (r : String) (h : shellPipe cands = some r) :
    r ∈ cands ∧ (∀ c ∈ cands, cands.count c ≤ cands.count r) ∧
      (∀ c ∈ cands, cands.count c = cands.count r → strLe c r = true) := by
  have hLperm : List.Perm (sortLex cands) cands := List.perm_insertionSort strLeP cands
  have hLsorted : (sortLex cands).Sorted strLeP := List.sorted_insertionSort strLeP cands
  have hTperm : List.Perm (sortByCount (uniqCount (sortLex cands))) (uniqCount (sortLex cands)) :=
    List.perm_insertionSort lineLe (uniqCount (sortLex cands))
  have hTsorted : (sortByCount (uniqCount (sortLex cands))).Sorted lineLe :=
    List.sorted_insertionSort lineLe (uniqCount (sortLex cands))
  have h' : (sortByCount (uniqCount (sortLex cands))).getLast?.map Prod.snd = some r := h
  cases hT : (sortByCount (uniqCount (sortLex cands))).getLast? with
  | none => rw [hT] at h'; cases h'
  | some p =>
    rw [hT] at h'
    have hpr : p.2 = r := Option.some_inj.mp h'
    have hpT : p ∈ sortByCount (uniqCount (sortLex cands)) := List.mem_of_mem_getLast? hT
    have hpG : p ∈ uniqCount (sortLex cands) := hTperm.mem_iff.mp hpT
    have hpcount : p.1 = (sortLex cands).count p.2 :=
      uniqCount_count (sortLex cands) hLsorted p hpG
    have hrcount : p.1 = cands.count r := by
      rw [hpcount, hpr, hLperm.count_eq]
    have hrmem : r ∈ cands := by
      have := snd_mem_of_mem_uniqCount (sortLex cands) p hpG
      rw [hpr] at this
      exact hLperm.mem_iff.mp this
    refine ⟨hrmem, ?_, ?_⟩
    · intro c hc
      have hcL : c ∈ sortLex cands := hLperm.mem_iff.mpr hc
      obtain ⟨n, hn⟩ := exists_mem_uniqCount (sortLex cands) c hcL
      have hnc : n = cands.count c := by
        have h1 : n = List.count c (sortLex cands) :=
          uniqCount_count (sortLex cands) hLsorted (n, c) hn
        rw [h1]
        exact hLperm.count_eq c
      have hnT : (n, c) ∈ sortByCount (uniqCount (sortLex cands)) := hTperm.mem_iff.mpr hn
      rcases pairwise_getLast_rel _ hTsorted p hT (n, c) hnT with heq | hrel
      · have hn1 : n = p.1 := congrArg Prod.fst heq
        rw [← hnc, hn1, hrcount]
      · rcases hrel with hlt | ⟨heqc, _⟩
        · have hlt' : n < p.1 := hlt
          rw [← hnc, ← hrcount]
          exact le_of_lt hlt'
        · have heqc' : n = p.1 := heqc
          rw [← hnc, ← hrcount]
          exact le_of_eq heqc'
    · intro c hc hcc
      have hcL : c ∈ sortLex cands := hLperm.mem_iff.mpr hc
      obtain ⟨n, hn⟩ := exists_mem_uniqCount (sortLex cands) c hcL
      have hnc : n = cands.count c := by
        have h1 : n = List.count c (sortLex cands) :=
          uniqCount_count (sortLex cands) hLsorted (n, c) hn
        rw [h1]
        exact hLperm.count_eq c
      have hnT : (n, c) ∈ sortByCount (uniqCount (sortLex cands)) := hTperm.mem_iff.mpr hn
      rcases pairwise_getLast_rel _ hTsorted p hT (n, c) hnT with heq | hrel
      · have hcp : c = p.2 := congrArg Prod.snd heq
        rw [hcp, hpr]
        exact strLe_refl r
      · rcases hrel with hlt | ⟨_, hsle⟩
        · exfalso
          have hlt' : n < p.1 := hlt
          rw [hnc, hcc, ← hrcount] at hlt'
          exact lt_irrefl _ hlt'
        · rw [← hpr]; exact hsle

/-- On a nonempty candidate list the pipeline keeps a candidate. -/
theorem shellPipe_isSome (cands : List String) (h : cands ≠ []) :
    ∃ r, shellPipe cands = some r := by
  have hLperm : List.Perm (sortLex cands) cands := List.perm_insertionSort strLeP cands
  have hLne : sortLex cands ≠ [] := by
    intro he
    have hp2 : List.Perm ([] : List String) cands := he ▸ hLperm
    exact h (List.Perm.eq_nil hp2.symm)
  have hGne : uniqCount (sortLex cands) ≠ [] := fun he => hLne (uniqCount_eq_nil.mp he)
  have hTperm : List.Perm (sortByCount (uniqCount (sortLex cands))) (uniqCount (sortLex cands)) :=
    List.perm_insertionSort lineLe (uniqCount (sortLex cands))
  have hTne : sortByCount (uniqCount (sortLex cands)) ≠ [] := by
    intro he
    have hp2 : List.Perm ([] : List (Nat × String)) (uniqCount (sortLex cands)) := he ▸ hTperm
    exact hGne (List.Perm.eq_nil hp2.symm)
  cases hT : (sortByCount (uniqCount (sortLex cands))).getLast? with
  | none =>
    exfalso
    exact hTne (List.getLast?_eq_none_iff.mp hT)
  | some p =>
    exact ⟨p.2, by unfold shellPipe; rw [hT]; rfl⟩

/-! ### Helper lemmas for the claims -/

theorem get_crop_parameters_nil : get_crop_parameters [] = none := rfl

theorem exists_four_of_length {α : Type} (l : List α) (h : l.length = 4) :
    ∃ a b c d, l = [a, b, c, d] := by
  cases l with
  | nil => simp at h
  | cons a t1 =>
    cases t1 with
    | nil => simp at h
    | cons b t2 =>
      cases t2 with
      | nil => simp at h
      | cons c t3 =>
        cases t3 with
        | nil => simp at h
        | cons d t4 =>
          cases t4 with
          | nil => exact ⟨a, b, c, d, rfl⟩
          | cons e t5 => simp only [List.length_cons, List.length_nil] at h; omega

theorem get_crop_parameters_eq_of_pipe (cands : List String) (r : String)
    (h : shellPipe cands = some r) (a b c d : String) (hs : splitColon r = [a, b, c, d]) :
    get_crop_parameters cands = some (a, b) := by
  simp only [get_crop_parameters, h]
  show (match splitColon r with
        | [w1, h1, _, _] => some (w1, h1)
        | _ => none) = some (a, b)
  rw [hs]

/-! ### The claims -/

/--
C1, amended: for every nonempty list of crop candidates produced by the
detection run, the Crop Detector keeps a candidate with the highest
occurrence count; when distinct candidates tie for the highest count it
keeps the byte-wise (lexicographically) greatest candidate string among
them — which need not be the candidate reported last, nor the tail of a
stable sort of the candidates by count.
-/
theorem crop_detector_pick_amended (cands : List String) (h : cands ≠ []) :
    ∃ r, shellPipe cands = some r ∧ pipeWinner cands r := by
  obtain ⟨r, hr⟩ := shellPipe_isSome cands h
  exact ⟨r, hr, shellPipe_spec cands r hr⟩

/--
Witness for the amended C1 theorem, at the spec's own example: the
majority candidate 1920:800 wins.
-/
theorem crop_detector_pick_amended_witness :
    (["1920:800:0:140", "1920:800:0:140", "1920:816:0:132"] : List String) ≠ [] ∧
      (∃ r, shellPipe ["1920:800:0:140", "1920:800:0:140", "1920:816:0:132"] = some r ∧
        pipeWinner ["1920:800:0:140", "1920:800:0:140", "1920:816:0:132"] r) :=
  ⟨by decide, crop_detector_pick_amended _ (by decide)⟩

/--
C1, counterexample: on a run whose two distinct candidates tie at the
highest count and whose later-reported candidate is byte-wise smaller,
the code returns 1920x816, while the candidate reported last — which is
also the tail of a stable sort of the candidates by occurrence count —
is 1920:800:0:140; so the tie is not broken in favour of the candidate
reported last.
-/
theorem crop_detector_last_reported_refuted :
    get_crop_parameters tieCands = some ("1920", "816") ∧
      shellPipe tieCands = some "1920:816:0:132" ∧
      tieCands.getLast? = some "1920:800:0:140" ∧
      claim_stable_sort_tail_pick tieCands = some "1920:800:0:140" ∧
      tieCands.count "1920:816:0:132" = tieCands.count "1920:800:0:140" ∧
      ("1920:816:0:132" : String) ≠ "1920:800:0:140" := by
  decide

/--
C2: the Tolerance Comparator is true iff both dimension differences are
strictly below the tolerance; with tolerance 0 it rejects even an exact
match, and a difference exactly equal to the tolerance is rejected; and
on a successful probe `check_video_resolution` returns exactly this
comparison at the configured `rel_tol`.
-/
theorem tolerance_comparator_spec :
    (∀ cw ch w h t : Int, withinTolerance cw ch w h t = true ↔ (|w - cw| < t ∧ |h - ch| < t)) ∧
    (∀ cw ch : Int, withinTolerance cw ch cw ch 0 = false) ∧
    (∀ cw ch w h t : Int, |w - cw| = t → withinTolerance cw ch w h t = false) ∧
    (∀ (pw : ProbeWorld) (path : PyVal) (wS hS : PyNum) (w h : Int),
      pw.probeRC = 0 → pyIntNum wS = some w → pyIntNum hS = some h →
      (check_video_resolution pw path wS hS).2 = Except.ok (withinTolerance pw.cw pw.ch w h rel_tol)) := by
  refine ⟨?_, ?_, ?_, ?_⟩
  · intro cw ch w h t
    simp [withinTolerance]
  · intro cw ch
    simp [withinTolerance]
  · intro cw ch w h t habs
    simp only [withinTolerance, Bool.and_eq_false_iff]
    left
    simp [habs]
  · intro pw path wS hS w h h0 hw hh
    have hrc : ¬ pw.probeRC > 0 := by omega
    simp [check_video_resolution, hrc, hw, hh]

/--
Witness for the C2 theorem at the spec's boundary examples: height
difference 14 is accepted at tolerance 18, an exact match is rejected
at tolerance 0, a width difference of exactly 18 is rejected at
tolerance 18, and a successful probe returns the comparison.
-/
theorem tolerance_comparator_spec_witness :
    withinTolerance 1920 800 1920 814 18 = true ∧
      withinTolerance 1920 800 1920 800 0 = false ∧
      withinTolerance 1920 800 1938 800 18 = false ∧
      (check_video_resolution ⟨0, 1920, 800⟩ (PyVal.str "v")
          (PyNum.int 1920) (PyNum.int 814)).2 = Except.ok true := by
  refine ⟨?_, tolerance_comparator_spec.2.1 1920 800, ?_, ?_⟩
  · exact (tolerance_comparator_spec.1 1920 800 1920 814 18).mpr (by decide)
  · exact tolerance_comparator_spec.2.2.1 1920 800 1938 800 18 (by decide)
  · have h := tolerance_comparator_spec.2.2.2 ⟨0, 1920, 800⟩ (PyVal.str "v")
      (PyNum.int 1920) (PyNum.int 814) 1920 814 rfl rfl rfl
    rw [h]
    exact congrArg Except.ok (by decide)

/--
C6: a detection run that produces zero crop candidates fails (exit
code 1, never a rectangle), while a nonempty run of well-formed
candidates — ties included — always resolves to a rectangle and is
never surfaced as an error.
-/
theorem crop_detector_empty_failure :
    (∀ (dw : DetectWorld) (p : PyVal), dw.candidates = [] →
        (get_crop_parameters_run dw p).2 = Except.error 1) ∧
    (∀ (dw : DetectWorld) (p : PyVal), dw.detectRC = 0 → dw.candidates ≠ [] →
        (∀ c ∈ dw.candidates, (splitColon c).length = 4) →
        ∃ wh, (get_crop_parameters_run dw p).2 = Except.ok wh) := by
  constructor
  · intro dw p hc
    by_cases hrc : dw.detectRC > 0
    · simp [get_crop_parameters_run, hrc]
    · simp [get_crop_parameters_run, hrc, hc, get_crop_parameters_nil]
  · intro dw p hrc hne hall
    obtain ⟨r, hr⟩ := shellPipe_isSome dw.candidates hne
    have hrmem : r ∈ dw.candidates := (shellPipe_spec _ r hr).1
    obtain ⟨a, b, c, d, hs⟩ := exists_four_of_length _ (hall r hrmem)
    have hg := get_crop_parameters_eq_of_pipe _ r hr a b c d hs
    have hrc0 : ¬ dw.detectRC > 0 := by omega
    exact ⟨(a, b), by simp [get_crop_parameters_run, hrc0, hg]⟩

/--
Witness for the C6 theorem: the empty run fails with exit 1; the tied
run resolves to a rectangle.
-/
theorem crop_detector_empty_failure_witness :
    (get_crop_parameters_run ⟨0, []⟩ (PyVal.str "v")).2 = Except.error 1 ∧
      ∃ wh, (get_crop_parameters_run ⟨0, tieCands⟩ (PyVal.str "v")).2 = Except.ok wh :=
  ⟨crop_detector_empty_failure.1 ⟨0, []⟩ (PyVal.str "v") rfl,
   crop_detector_empty_failure.2 ⟨0, tieCands⟩ (PyVal.str "v") rfl (by decide) (by decide)⟩

/--
C4: a failed destination delete is a hard gate: the crop operation
terminates with exit 1, a warning record, and no transcode; a transcode
only ever happens when the delete succeeded, and then strictly after
the delete.
-/
theorem crop_executor_delete_gate :
    (∀ (cw : CropWorld) (s d : PyVal) (wd ht : PyNum), cw.deleteRC > 0 →
        (crop_video cw s d wd ht).2 = some 1 ∧
        (∃ m, Ev.warn m ∈ (crop_video cw s d wd ht).1) ∧
        (∀ e ∈ (crop_video cw s d wd ht).1, isTranscodeEv e = false)) ∧
    (∀ (cw : CropWorld) (s d : PyVal) (wd ht : PyNum) (e : Ev),
        e ∈ (crop_video cw s d wd ht).1 → isTranscodeEv e = true → cw.deleteRC = 0) ∧
    (∀ (cw : CropWorld) (s d : PyVal) (wd ht : PyNum), cw.deleteRC = 0 →
        ∃ rest, (crop_video cw s d wd ht).1 =
          Ev.deleteFile d :: Ev.transcode s d wd ht :: rest) := by
  refine ⟨?_, ?_, ?_⟩
  · intro cw s d wd ht h
    refine ⟨by simp [crop_video, h], ⟨"Failed to delete existing file", by simp [crop_video, h]⟩, ?_⟩
    intro e he
    simp only [crop_video, if_pos h] at he
    rcases List.mem_cons.mp he with he | he
    · subst he; rfl
    · rcases List.mem_singleton.mp he with he
      subst he; rfl
  · intro cw s d wd ht e he htr
    by_cases h0 : cw.deleteRC = 0
    · exact h0
    · exfalso
      have h : cw.deleteRC > 0 := Nat.pos_of_ne_zero h0
      simp only [crop_video, if_pos h] at he
      rcases List.mem_cons.mp he with he | he
      · subst he; simp [isTranscodeEv] at htr
      · rcases List.mem_singleton.mp he with he
        subst he; simp [isTranscodeEv] at htr
  · intro cw s d wd ht h
    have h0 : ¬ cw.deleteRC > 0 := by omega
    by_cases hf : cw.ffmpegRC > 0
    · exact ⟨[Ev.warn "cmd failed during crop_video"], by simp [crop_video, h0, hf]⟩
    · exact ⟨[Ev.info "successfully cropped"], by simp [crop_video, h0, hf]⟩

/--
Witness for the C4 theorem: with a failing delete the crop exits 1
with a warning and no transcode, and with a successful delete the
trace starts with the delete followed by the transcode.
-/
theorem crop_executor_delete_gate_witness :
    ((crop_video ⟨1, 0⟩ (PyVal.str "s") (PyVal.str "d") (PyNum.int 1920) (PyNum.int 800)).2 = some 1 ∧
      (∃ m, Ev.warn m ∈ (crop_video ⟨1, 0⟩ (PyVal.str "s") (PyVal.str "d") (PyNum.int 1920) (PyNum.int 800)).1) ∧
      (∀ e ∈ (crop_video ⟨1, 0⟩ (PyVal.str "s") (PyVal.str "d") (PyNum.int 1920) (PyNum.int 800)).1,
        isTranscodeEv e = false)) ∧
    (∃ rest, (crop_video ⟨0, 0⟩ (PyVal.str "s") (PyVal.str "d") (PyNum.int 1920) (PyNum.int 800)).1 =
      Ev.deleteFile (PyVal.str "d") ::
        Ev.transcode (PyVal.str "s") (PyVal.str "d") (PyNum.int 1920) (PyNum.int 800) :: rest) :=
  ⟨crop_executor_delete_gate.1 ⟨1, 0⟩ (PyVal.str "s") (PyVal.str "d")
      (PyNum.int 1920) (PyNum.int 800) (by decide),
   crop_executor_delete_gate.2.2 ⟨0, 0⟩ (PyVal.str "s") (PyVal.str "d")
      (PyNum.int 1920) (PyNum.int 800) rfl⟩

/--
C9: every file-deleting or file-writing event of the crop operation
targets the destination path, and the only read is of the source path:
the source is never deleted, truncated or written.
-/
theorem crop_executor_source_readonly :
    ∀ (cw : CropWorld) (s d : PyVal) (wd ht : PyNum) (e : Ev),
      e ∈ (crop_video cw s d wd ht).1 →
      (deletesPath e = none ∨ deletesPath e = some d) ∧
      (writesPath e = none ∨ writesPath e = some d) ∧
      (readsPath e = none ∨ readsPath e = some s) := by
  intro cw s d wd ht e he
  by_cases h1 : cw.deleteRC > 0
  · simp only [crop_video, if_pos h1] at he
    rcases List.mem_cons.mp he with he | he
    · subst he; simp [deletesPath, writesPath, readsPath]
    · rcases List.mem_singleton.mp he with he
      subst he; simp [deletesPath, writesPath, readsPath]
  · by_cases h2 : cw.ffmpegRC > 0 <;>
      [simp only [crop_video, if_neg h1, if_pos h2] at he;
       simp only [crop_video, if_neg h1, if_neg h2] at he] <;>
      · rcases List.mem_cons.mp he with he | he
        · subst he; simp [deletesPath, writesPath, readsPath]
        · rcases List.mem_cons.mp he with he | he
          · subst he; simp [deletesPath, writesPath, readsPath]
          · rcases List.mem_singleton.mp he with he
            subst he; simp [deletesPath, writesPath, readsPath]

/--
Witness for the C9 theorem, at the transcode event of a successful
crop: it writes the destination and reads the source.
-/
theorem crop_executor_source_readonly_witness :
    (deletesPath (Ev.transcode (PyVal.str "s") (PyVal.str "d") (PyNum.int 1920) (PyNum.int 800)) = none ∨
      deletesPath (Ev.transcode (PyVal.str "s") (PyVal.str "d") (PyNum.int 1920) (PyNum.int 800)) = some (PyVal.str "d")) ∧
    (writesPath (Ev.transcode (PyVal.str "s") (PyVal.str "d") (PyNum.int 1920) (PyNum.int 800)) = none ∨
      writesPath (Ev.transcode (PyVal.str "s") (PyVal.str "d") (PyNum.int 1920) (PyNum.int 800)) = some (PyVal.str "d")) ∧
    (readsPath (Ev.transcode (PyVal.str "s") (PyVal.str "d") (PyNum.int 1920) (PyNum.int 800)) = none ∨
      readsPath (Ev.transcode (PyVal.str "s") (PyVal.str "d") (PyNum.int 1920) (PyNum.int 800)) = some (PyVal.str "s")) :=
  crop_executor_source_readonly ⟨0, 0⟩ (PyVal.str "s") (PyVal.str "d")
    (PyNum.int 1920) (PyNum.int 800)
    (Ev.transcode (PyVal.str "s") (PyVal.str "d") (PyNum.int 1920) (PyNum.int 800)) (by decide)

/--
C7: the event dispatch tests the truthiness of the literal string
"sonarr_eventtype", which is always true, so for every environment the
Sonarr branch runs and the Radarr branch is dead code.
-/
theorem dispatch_always_sonarr :
    pythonTruthy "sonarr_eventtype" = true ∧
      ∀ w : SonarrWorld, sonarr_main w = sonarr_branch_body w := by
  constructor
  · rfl
  · intro w
    rfl

/-! ### Evaluation equations for the orchestrator branches -/

theorem processVideo_missing (w : SonarrWorld) (fp sp : PyVal) (dbr : List ShowRow)
    (h : (w.file_exists fp && w.file_exists sp) = false) :
    processVideo w fp sp dbr = ([Ev.warn "Unable to find specified file(s)"], some 1) := by
  unfold processVideo
  rw [h]
  rfl

theorem processVideo_override (w : SonarrWorld) (fp sp : PyVal) (r : ShowRow)
    (hfp : w.file_exists fp = true) (hsp : w.file_exists sp = true) :
    processVideo w fp sp [r] = overrideBranch w fp sp r := by
  unfold processVideo
  rw [hfp, hsp]
  rfl

theorem processVideo_auto (w : SonarrWorld) (fp sp : PyVal) (dbr : List ShowRow)
    (hfp : w.file_exists fp = true) (hsp : w.file_exists sp = true)
    (hlen : dbr.length ≠ 1) :
    processVideo w fp sp dbr = autoBranch w fp sp := by
  unfold processVideo
  rw [hfp, hsp]
  cases dbr with
  | nil => rfl
  | cons a t =>
    cases t with
    | nil => exact absurd rfl hlen
    | cons b t2 => rfl

theorem overrideBranch_check_error (w : SonarrWorld) (fp sp : PyVal) (r : ShowRow)
    (ev1 : List Ev) (c : Nat)
    (h : check_video_resolution w.probe sp (PyNum.int r.horizontal) (PyNum.int r.vertical) =
      (ev1, Except.error c)) :
    overrideBranch w fp sp r = (ev1, some c) := by
  unfold overrideBranch
  rw [h]

theorem overrideBranch_skip (w : SonarrWorld) (fp sp : PyVal) (r : ShowRow) (ev1 : List Ev)
    (h : check_video_resolution w.probe sp (PyNum.int r.horizontal) (PyNum.int r.vertical) =
      (ev1, Except.ok true)) :
    overrideBranch w fp sp r =
      (ev1 ++ [Ev.printed "already_croped"] ++
        [Ev.info "Video already in the specified resolution. Skipping..."], none) := by
  unfold overrideBranch
  rw [h]
  rfl

theorem overrideBranch_crop (w : SonarrWorld) (fp sp : PyVal) (r : ShowRow) (ev1 : List Ev)
    (h : check_video_resolution w.probe sp (PyNum.int r.horizontal) (PyNum.int r.vertical) =
      (ev1, Except.ok false)) :
    overrideBranch w fp sp r =
      (ev1 ++ [Ev.printed "already_croped"] ++ [Ev.info "Begining crop video!"] ++
        (crop_video w.cropw sp fp (PyNum.int r.horizontal) (PyNum.int r.vertical)).1,
       (crop_video w.cropw sp fp (PyNum.int r.horizontal) (PyNum.int r.vertical)).2) := by
  unfold overrideBranch
  rw [h]
  rfl

theorem autoBranch_detect_error (w : SonarrWorld) (fp sp : PyVal) (evd : List Ev) (c : Nat)
    (h : get_crop_parameters_run w.detect sp = (evd, Except.error c)) :
    autoBranch w fp sp = (evd, some c) := by
  unfold autoBranch
  rw [h]

theorem autoBranch_check_error (w : SonarrWorld) (fp sp : PyVal) (evd ev1 : List Ev)
    (width height : String) (c : Nat)
    (h1 : get_crop_parameters_run w.detect sp = (evd, Except.ok (width, height)))
    (h2 : check_video_resolution w.probe sp (PyNum.str width) (PyNum.str height) =
      (ev1, Except.error c)) :
    autoBranch w fp sp = (evd ++ ev1, some c) := by
  unfold autoBranch
  rw [h1]
  show autoBranchChecked w fp sp evd width height = _
  unfold autoBranchChecked
  rw [h2]

theorem autoBranch_skip (w : SonarrWorld) (fp sp : PyVal) (evd ev1 : List Ev)
    (width height : String)
    (h1 : get_crop_parameters_run w.detect sp = (evd, Except.ok (width, height)))
    (h2 : check_video_resolution w.probe sp (PyNum.str width) (PyNum.str height) =
      (ev1, Except.ok true)) :
    autoBranch w fp sp = (evd ++ ev1, none) := by
  unfold autoBranch
  rw [h1]
  show autoBranchChecked w fp sp evd width height = _
  unfold autoBranchChecked
  rw [h2]
  rfl

theorem autoBranch_crop (w : SonarrWorld) (fp sp : PyVal) (evd ev1 : List Ev)
    (width height : String)
    (h1 : get_crop_parameters_run w.detect sp = (evd, Except.ok (width, height)))
    (h2 : check_video_resolution w.probe sp (PyNum.str width) (PyNum.str height) =
      (ev1, Except.ok false)) :
    autoBranch w fp sp =
      (evd ++ ev1 ++ (crop_video w.cropw sp fp (PyNum.str width) (PyNum.str height)).1,
       (crop_video w.cropw sp fp (PyNum.str width) (PyNum.str height)).2) := by
  unfold autoBranch
  rw [h1]
  show autoBranchChecked w fp sp evd width height = _
  unfold autoBranchChecked
  rw [h2]
  rfl

/-- The detection subprocess is invoked (and recorded) on every call of
the effectful `get_crop_parameters`, whatever its outcome. -/
theorem detectRun_mem_run (dw : DetectWorld) (p : PyVal) :
    Ev.detectRun ∈ (get_crop_parameters_run dw p).1 := by
  by_cases h : dw.detectRC > 0
  · simp [get_crop_parameters_run, h]
  · cases hg : get_crop_parameters dw.candidates with
    | none => simp [get_crop_parameters_run, h, hg]
    | some wh => simp [get_crop_parameters_run, h, hg]

/--
C3: the override lookup resolves to the matched rectangle exactly when
precisely one table row matches; with zero or several matching rows it
resolves to nothing — a non-error outcome — and the orchestrator
proceeds to automatic detection instead of failing.
-/
theorem override_resolver_spec :
    (∀ (db : List ShowRow) (name : PyVal) (sn : Int) (r : ShowRow),
        lookup_rows db name sn = [r] →
        resolve_override db name sn = some (r.horizontal, r.vertical)) ∧
    (∀ (db : List ShowRow) (name : PyVal) (sn : Int),
        (lookup_rows db name sn).length ≠ 1 → resolve_override db name sn = none) ∧
    (∀ (w : SonarrWorld) (fp sp : PyVal) (dbr : List ShowRow),
        w.file_exists fp = true → w.file_exists sp = true → dbr.length ≠ 1 →
        Ev.detectRun ∈ (processVideo w fp sp dbr).1) := by
  refine ⟨?_, ?_, ?_⟩
  · intro db name sn r h
    unfold resolve_override
    rw [h]
  · intro db name sn hlen
    unfold resolve_override
    cases h : lookup_rows db name sn with
    | nil => rfl
    | cons r t =>
      cases t with
      | nil => exact absurd (by rw [h]; rfl) hlen
      | cons r2 t2 => rfl
  · intro w fp sp dbr hfp hsp hlen
    rw [processVideo_auto w fp sp dbr hfp hsp hlen]
    rcases hgr : get_crop_parameters_run w.detect sp with ⟨evd, res⟩
    have hev : Ev.detectRun ∈ evd := by
      have hm := detectRun_mem_run w.detect sp
      rw [hgr] at hm
      exact hm
    cases res with
    | error c =>
      rw [autoBranch_detect_error w fp sp evd c hgr]
      exact hev
    | ok wh =>
      obtain ⟨width, height⟩ := wh
      rcases hcv : check_video_resolution w.probe sp (PyNum.str width) (PyNum.str height) with ⟨ev1, res1⟩
      cases res1 with
      | error c =>
        rw [autoBranch_check_error w fp sp evd ev1 width height c hgr hcv]
        exact List.mem_append_left _ hev
      | ok b =>
        cases b with
        | true =>
          rw [autoBranch_skip w fp sp evd ev1 width height hgr hcv]
          exact List.mem_append_left _ hev
        | false =>
          rw [autoBranch_crop w fp sp evd ev1 width height hgr hcv]
          exact List.mem_append_left _ (List.mem_append_left _ hev)

/--
Witness for the C3 theorem: a one-row table resolves to its rectangle;
a missing key resolves to nothing; a duplicated key resolves to
nothing; and with an empty table the orchestrator runs detection.
-/
theorem override_resolver_spec_witness :
    resolve_override [⟨"Show X", 2, 1920, 800⟩] (PyVal.str "Show X") 2 = some (1920, 800) ∧
      resolve_override [⟨"Show X", 2, 1920, 800⟩] (PyVal.str "Show X") 3 = none ∧
      resolve_override [⟨"Show X", 2, 1920, 800⟩, ⟨"Show X", 2, 1920, 816⟩]
        (PyVal.str "Show X") 2 = none ∧
      Ev.detectRun ∈ (processVideo detectEmptyWorld (PyVal.str "f") (PyVal.str "s") []).1 :=
  ⟨override_resolver_spec.1 [⟨"Show X", 2, 1920, 800⟩] (PyVal.str "Show X") 2
      ⟨"Show X", 2, 1920, 800⟩ (by decide),
   override_resolver_spec.2.1 [⟨"Show X", 2, 1920, 800⟩] (PyVal.str "Show X") 3 (by decide),
   override_resolver_spec.2.1 [⟨"Show X", 2, 1920, 800⟩, ⟨"Show X", 2, 1920, 816⟩]
      (PyVal.str "Show X") 2 (by decide),
   override_resolver_spec.2.2 detectEmptyWorld (PyVal.str "f") (PyVal.str "s") [] rfl rfl (by decide)⟩

/--
C10: an absent environment variable defaults to the sentinel `False`;
`int(False)` is 0, so with the season variable unset the run proceeds
with season 0, and a table row with Season 0 and a matching title is
matched by the lookup rather than the override being skipped or
rejected.
-/
theorem env_default_season_zero :
    (∀ (env : String → Option String) (v : String), env v = none →
        events_vars env v = PyVal.pyFalse) ∧
    pyInt PyVal.pyFalse = some 0 ∧
    (∀ w : SonarrWorld, w.env "sonarr_episodefile_seasonnumber" = none →
        sonarr_main w = sonarrBodyWithSeason w 0) ∧
    (∀ (db : List ShowRow) (t : String) (hz v : Int),
        ShowRow.mk t 0 hz v ∈ db →
        ShowRow.mk t 0 hz v ∈ lookup_rows db (PyVal.str t) 0) := by
  refine ⟨?_, rfl, ?_, ?_⟩
  · intro env v h
    simp [events_vars, h]
  · intro w h
    have h1 : events_vars w.env "sonarr_episodefile_seasonnumber" = PyVal.pyFalse := by
      simp [events_vars, h]
    have h2 : sonarr_main w = sonarr_branch_body w := rfl
    rw [h2]
    unfold sonarr_branch_body
    rw [h1]
    rfl
  · intro db t hz v hmem
    unfold lookup_rows
    rw [List.mem_filter]
    refine ⟨hmem, ?_⟩
    simp [pyEqStr]

/--
Witness for the C10 theorem: with every variable unset the season
lookup value is 0 and a Season-0 row matches.
-/
theorem env_default_season_zero_witness :
    events_vars (fun _ => none) "sonarr_episodefile_seasonnumber" = PyVal.pyFalse ∧
      pyInt PyVal.pyFalse = some 0 ∧
      sonarr_main ⟨fun _ => none, [], fun _ => true, ⟨0, 0, 0⟩, ⟨0, []⟩, ⟨0, 0⟩⟩ =
        sonarrBodyWithSeason ⟨fun _ => none, [], fun _ => true, ⟨0, 0, 0⟩, ⟨0, []⟩, ⟨0, 0⟩⟩ 0 ∧
      ShowRow.mk "Show X" 0 1920 800 ∈
        lookup_rows [ShowRow.mk "Show X" 0 1920 800] (PyVal.str "Show X") 0 :=
  ⟨env_default_season_zero.1 (fun _ => none) "sonarr_episodefile_seasonnumber" rfl,
   env_default_season_zero.2.1,
   env_default_season_zero.2.2.1 ⟨fun _ => none, [], fun _ => true, ⟨0, 0, 0⟩, ⟨0, []⟩, ⟨0, 0⟩⟩ rfl,
   env_default_season_zero.2.2.2 [ShowRow.mk "Show X" 0 1920 800] "Show X" 1920 800 (by decide)⟩

/-! ### Exit-outcome case analyses and main-block equations -/

theorem sonarrBodyWithSeason_eq (w : SonarrWorld) (sn : Int) :
    sonarrBodyWithSeason w sn =
      (Ev.info "New show added" ::
        (processVideo w (events_vars w.env "sonarr_episodefile_path")
          (events_vars w.env "sonarr_episodefile_sourcepath")
          (lookup_rows w.show_db (events_vars w.env "sonarr_series_title") sn)).1,
       (processVideo w (events_vars w.env "sonarr_episodefile_path")
          (events_vars w.env "sonarr_episodefile_sourcepath")
          (lookup_rows w.show_db (events_vars w.env "sonarr_series_title") sn)).2) := rfl

theorem script_main_test (w : SonarrWorld) (h : testInvocation w = true) :
    script_main w = ([Ev.info "Test has been ran successfully."], 0) := by
  unfold script_main
  rw [h]
  rfl

theorem script_main_exit (w : SonarrWorld) (evs : List Ev) (c : Nat)
    (hT : testInvocation w = false) (hS : sonarr_main w = (evs, some c)) :
    script_main w = (evs, c) := by
  unfold script_main
  rw [hT, hS]
  rfl

theorem script_main_done (w : SonarrWorld) (evs : List Ev)
    (hT : testInvocation w = false) (hS : sonarr_main w = (evs, none)) :
    script_main w = (evs ++ [Ev.info "Completed script!"], 0) := by
  unfold script_main
  rw [hT, hS]
  rfl

theorem crop_video_code (cw : CropWorld) (s d : PyVal) (wd ht : PyNum) :
    (crop_video cw s d wd ht).2 = none ∨ (crop_video cw s d wd ht).2 = some 1 := by
  by_cases h1 : cw.deleteRC > 0
  · right; simp [crop_video, h1]
  · by_cases h2 : cw.ffmpegRC > 0
    · right; simp [crop_video, h1, h2]
    · left; simp [crop_video, h1, h2]

theorem check_video_resolution_code (pw : ProbeWorld) (p : PyVal) (wd ht : PyNum) :
    (check_video_resolution pw p wd ht).2 = Except.error 1 ∨
      ∃ b, (check_video_resolution pw p wd ht).2 = Except.ok b := by
  by_cases h : pw.probeRC > 0
  · left; simp [check_video_resolution, h]
  · unfold check_video_resolution
    rw [if_neg h]
    cases hw : pyIntNum wd with
    | none =>
      cases hh : pyIntNum ht with
      | none => left; rfl
      | some hv => left; rfl
    | some wv =>
      cases hh : pyIntNum ht with
      | none => left; rfl
      | some hv => exact Or.inr ⟨withinTolerance pw.cw pw.ch wv hv rel_tol, rfl⟩

theorem get_crop_parameters_run_code (dw : DetectWorld) (p : PyVal) :
    (get_crop_parameters_run dw p).2 = Except.error 1 ∨
      ∃ wh, (get_crop_parameters_run dw p).2 = Except.ok wh := by
  by_cases h : dw.detectRC > 0
  · left; simp [get_crop_parameters_run, h]
  · unfold get_crop_parameters_run
    rw [if_neg h]
    cases hg : get_crop_parameters dw.candidates with
    | none => left; rfl
    | some wh => exact Or.inr ⟨wh, rfl⟩

theorem overrideBranch_code (w : SonarrWorld) (fp sp : PyVal) (r : ShowRow) :
    (overrideBranch w fp sp r).2 = none ∨ (overrideBranch w fp sp r).2 = some 1 := by
  rcases hcv : check_video_resolution w.probe sp (PyNum.int r.horizontal) (PyNum.int r.vertical)
    with ⟨ev1, res1⟩
  cases res1 with
  | error c =>
    have hc : c = 1 := by
      rcases check_video_resolution_code w.probe sp (PyNum.int r.horizontal) (PyNum.int r.vertical)
        with he | ⟨b, hb⟩
      · rw [hcv] at he
        have he' : (Except.error c : Except Nat Bool) = Except.error 1 := he
        exact Except.noConfusion he' id
      · rw [hcv] at hb
        have hb' : (Except.error c : Except Nat Bool) = Except.ok b := hb
        exact Except.noConfusion hb'
    subst hc
    right
    rw [overrideBranch_check_error w fp sp r ev1 1 hcv]
  | ok b =>
    cases b with
    | true =>
      left
      rw [overrideBranch_skip w fp sp r ev1 hcv]
    | false =>
      rw [overrideBranch_crop w fp sp r ev1 hcv]
      exact crop_video_code w.cropw sp fp (PyNum.int r.horizontal) (PyNum.int r.vertical)

theorem autoBranch_code (w : SonarrWorld) (fp sp : PyVal) :
    (autoBranch w fp sp).2 = none ∨ (autoBranch w fp sp).2 = some 1 := by
  rcases hgr : get_crop_parameters_run w.detect sp with ⟨evd, res⟩
  cases res with
  | error c =>
    have hc : c = 1 := by
      rcases get_crop_parameters_run_code w.detect sp with he | ⟨wh, hb⟩
      · rw [hgr] at he
        have he' : (Except.error c : Except Nat (String × String)) = Except.error 1 := he
        exact Except.noConfusion he' id
      · rw [hgr] at hb
        have hb' : (Except.error c : Except Nat (String × String)) = Except.ok wh := hb
        exact Except.noConfusion hb'
    subst hc
    right
    rw [autoBranch_detect_error w fp sp evd 1 hgr]
  | ok wh =>
    obtain ⟨width, height⟩ := wh
    rcases hcv : check_video_resolution w.probe sp (PyNum.str width) (PyNum.str height)
      with ⟨ev1, res1⟩
    cases res1 with
    | error c =>
      have hc : c = 1 := by
        rcases check_video_resolution_code w.probe sp (PyNum.str width) (PyNum.str height)
          with he | ⟨b, hb⟩
        · rw [hcv] at he
          have he' : (Except.error c : Except Nat Bool) = Except.error 1 := he
          exact Except.noConfusion he' id
        · rw [hcv] at hb
          have hb' : (Except.error c : Except Nat Bool) = Except.ok b := hb
          exact Except.noConfusion hb'
      subst hc
      right
      rw [autoBranch_check_error w fp sp evd ev1 width height 1 hgr hcv]
    | ok b =>
      cases b with
      | true =>
        left
        rw [autoBranch_skip w fp sp evd ev1 width height hgr hcv]
      | false =>
        rw [autoBranch_crop w fp sp evd ev1 width height hgr hcv]
        exact crop_video_code w.cropw sp fp (PyNum.str width) (PyNum.str height)

theorem processVideo_code (w : SonarrWorld) (fp sp : PyVal) (dbr : List ShowRow) :
    (processVideo w fp sp dbr).2 = none ∨ (processVideo w fp sp dbr).2 = some 1 := by
  by_cases hex : (w.file_exists fp && w.file_exists sp) = true
  · rcases hfp : w.file_exists fp with _ | _
    · rw [hfp] at hex; cases hex
    · rcases hsp : w.file_exists sp with _ | _
      · rw [hfp, hsp] at hex; cases hex
      · cases dbr with
        | nil =>
          rw [processVideo_auto w fp sp [] hfp hsp (by simp)]
          exact autoBranch_code w fp sp
        | cons a t =>
          cases t with
          | nil =>
            rw [processVideo_override w fp sp a hfp hsp]
            exact overrideBranch_code w fp sp a
          | cons b t2 =>
            rw [processVideo_auto w fp sp (a :: b :: t2) hfp hsp (by simp)]
            exact autoBranch_code w fp sp
  · have hex' : (w.file_exists fp && w.file_exists sp) = false := by
      revert hex
      cases w.file_exists fp && w.file_exists sp <;> simp
    rw [processVideo_missing w fp sp dbr hex']
    right
    rfl

theorem sonarr_main_code (w : SonarrWorld) :
    (sonarr_main w).2 = none ∨ (sonarr_main w).2 = some 1 := by
  have h : sonarr_main w = sonarr_branch_body w := rfl
  rw [h]
  unfold sonarr_branch_body
  cases hpi : pyInt (events_vars w.env "sonarr_episodefile_seasonnumber") with
  | none => right; rfl
  | some sn =>
    show (sonarrBodyWithSeason w sn).2 = none ∨ (sonarrBodyWithSeason w sn).2 = some 1
    rw [sonarrBodyWithSeason_eq w sn]
    exact processVideo_code w _ _ _

/--
C5: when the source's current resolution is within tolerance of the
resolved target — whether that target came from a single-row override
hit or from automatic detection — the run performs no delete and no
transcode (so the destination file is untouched) and the process exits
with code 0.
-/
theorem orchestrator_skip_within_tolerance (w : SonarrWorld) (sn : Int)
    (hTest : testInvocation w = false)
    (hfp : w.file_exists (events_vars w.env "sonarr_episodefile_path") = true)
    (hsp : w.file_exists (events_vars w.env "sonarr_episodefile_sourcepath") = true)
    (hsn : pyInt (events_vars w.env "sonarr_episodefile_seasonnumber") = some sn)
    (hprobe : w.probe.probeRC = 0)
    (hacc : match lookup_rows w.show_db (events_vars w.env "sonarr_series_title") sn with
      | [r] => withinTolerance w.probe.cw w.probe.ch r.horizontal r.vertical rel_tol = true
      | _ => w.detect.detectRC = 0 ∧
          ∃ wS hS wI hI, get_crop_parameters w.detect.candidates = some (wS, hS) ∧
            parseIntChars wS.data = some wI ∧ parseIntChars hS.data = some hI ∧
            withinTolerance w.probe.cw w.probe.ch wI hI rel_tol = true) :
    (script_main w).2 = 0 ∧ ∀ e ∈ (script_main w).1, mutatesFile e = false := by
  have hd : sonarr_main w = sonarr_branch_body w := rfl
  have hp0 : ¬ w.probe.probeRC > 0 := by omega
  have hbody : sonarr_branch_body w = sonarrBodyWithSeason w sn := by
    unfold sonarr_branch_body
    rw [hsn]
  rcases hlk : lookup_rows w.show_db (events_vars w.env "sonarr_series_title") sn
    with _ | ⟨r, _ | ⟨r2, t⟩⟩
  · -- no override row: automatic detection, already cropped
    rw [hlk] at hacc
    obtain ⟨hdet, wS, hS, wI, hI, hpure, hwI, hhI, htol⟩ := hacc
    have hd0 : ¬ w.detect.detectRC > 0 := by omega
    have hrun : get_crop_parameters_run w.detect (events_vars w.env "sonarr_episodefile_sourcepath") =
        ([Ev.wslRun, Ev.detectRun], Except.ok (wS, hS)) := by
      simp [get_crop_parameters_run, hd0, hpure]
    have hcv : check_video_resolution w.probe (events_vars w.env "sonarr_episodefile_sourcepath")
        (PyNum.str wS) (PyNum.str hS) = ([Ev.probeRun], Except.ok true) := by
      simp [check_video_resolution, hp0, pyIntNum, hwI, hhI, htol]
    have hpv : processVideo w (events_vars w.env "sonarr_episodefile_path")
        (events_vars w.env "sonarr_episodefile_sourcepath")
        (lookup_rows w.show_db (events_vars w.env "sonarr_series_title") sn) =
        ([Ev.wslRun, Ev.detectRun] ++ [Ev.probeRun], none) := by
      rw [hlk, processVideo_auto w _ _ [] hfp hsp (by simp),
        autoBranch_skip w _ _ [Ev.wslRun, Ev.detectRun] [Ev.probeRun] wS hS hrun hcv]
    have hsm : sonarr_main w = (Ev.info "New show added" ::
        ([Ev.wslRun, Ev.detectRun] ++ [Ev.probeRun]), none) := by
      rw [hd, hbody, sonarrBodyWithSeason_eq w sn, hpv]
    have hfinal := script_main_done w _ hTest hsm
    rw [hfinal]
    refine ⟨rfl, ?_⟩
    intro e he
    simp at he
    rcases he with h | h | h | h | h <;> subst h <;> rfl
  · -- single override row: within tolerance, skip
    rw [hlk] at hacc
    have htol : withinTolerance w.probe.cw w.probe.ch r.horizontal r.vertical rel_tol = true := hacc
    have hcv : check_video_resolution w.probe (events_vars w.env "sonarr_episodefile_sourcepath")
        (PyNum.int r.horizontal) (PyNum.int r.vertical) = ([Ev.probeRun], Except.ok true) := by
      simp [check_video_resolution, hp0, pyIntNum, htol]
    have hpv : processVideo w (events_vars w.env "sonarr_episodefile_path")
        (events_vars w.env "sonarr_episodefile_sourcepath")
        (lookup_rows w.show_db (events_vars w.env "sonarr_series_title") sn) =
        ([Ev.probeRun] ++ [Ev.printed "already_croped"] ++
          [Ev.info "Video already in the specified resolution. Skipping..."], none) := by
      rw [hlk, processVideo_override w _ _ r hfp hsp,
        overrideBranch_skip w _ _ r [Ev.probeRun] hcv]
    have hsm : sonarr_main w = (Ev.info "New show added" ::
        ([Ev.probeRun] ++ [Ev.printed "already_croped"] ++
          [Ev.info "Video already in the specified resolution. Skipping..."]), none) := by
      rw [hd, hbody, sonarrBodyWithSeason_eq w sn, hpv]
    have hfinal := script_main_done w _ hTest hsm
    rw [hfinal]
    refine ⟨rfl, ?_⟩
    intro e he
    simp at he
    rcases he with h | h | h | h | h <;> subst h <;> rfl
  · -- several override rows: automatic detection, already cropped
    rw [hlk] at hacc
    obtain ⟨hdet, wS, hS, wI, hI, hpure, hwI, hhI, htol⟩ := hacc
    have hd0 : ¬ w.detect.detectRC > 0 := by omega
    have hrun : get_crop_parameters_run w.detect (events_vars w.env "sonarr_episodefile_sourcepath") =
        ([Ev.wslRun, Ev.detectRun], Except.ok (wS, hS)) := by
      simp [get_crop_parameters_run, hd0, hpure]
    have hcv : check_video_resolution w.probe (events_vars w.env "sonarr_episodefile_sourcepath")
        (PyNum.str wS) (PyNum.str hS) = ([Ev.probeRun], Except.ok true) := by
      simp [check_video_resolution, hp0, pyIntNum, hwI, hhI, htol]
    have hpv : processVideo w (events_vars w.env "sonarr_episodefile_path")
        (events_vars w.env "sonarr_episodefile_sourcepath")
        (lookup_rows w.show_db (events_vars w.env "sonarr_series_title") sn) =
        ([Ev.wslRun, Ev.detectRun] ++ [Ev.probeRun], none) := by
      rw [hlk, processVideo_auto w _ _ (r :: r2 :: t) hfp hsp (by simp),
        autoBranch_skip w _ _ [Ev.wslRun, Ev.detectRun] [Ev.probeRun] wS hS hrun hcv]
    have hsm : sonarr_main w = (Ev.info "New show added" ::
        ([Ev.wslRun, Ev.detectRun] ++ [Ev.probeRun]), none) := by
      rw [hd, hbody, sonarrBodyWithSeason_eq w sn, hpv]
    have hfinal := script_main_done w _ hTest hsm
    rw [hfinal]
    refine ⟨rfl, ?_⟩
    intro e he
    simp at he
    rcases he with h | h | h | h | h <;> subst h <;> rfl

/--
Witness for the C5 theorem, once with an override hit (row (A, 2,
1920, 800) against a 1920x800 source) and once with automatic
detection (candidate 1920:800:0:140 against a 1920x800 source): both
runs exit 0 without touching a file.
-/
theorem orchestrator_skip_within_tolerance_witness :
    ((script_main overrideHitWorld).2 = 0 ∧
      ∀ e ∈ (script_main overrideHitWorld).1, mutatesFile e = false) ∧
    ((script_main autoHitWorld).2 = 0 ∧
      ∀ e ∈ (script_main autoHitWorld).1, mutatesFile e = false) :=
  ⟨orchestrator_skip_within_tolerance overrideHitWorld 2 (by decide) rfl rfl (by decide) rfl
      (show withinTolerance 1920 800 1920 800 rel_tol = true by decide),
   orchestrator_skip_within_tolerance autoHitWorld 2 (by decide) rfl rfl (by decide) rfl
      (show autoHitWorld.detect.detectRC = 0 ∧
          ∃ wS hS wI hI, get_crop_parameters autoHitWorld.detect.candidates = some (wS, hS) ∧
            parseIntChars wS.data = some wI ∧ parseIntChars hS.data = some hI ∧
            withinTolerance autoHitWorld.probe.cw autoHitWorld.probe.ch wI hI rel_tol = true
        from ⟨rfl, "1920", "800", 1920, 800, by decide, by decide, by decide, by decide⟩)⟩

/--
C8, amended: the exit code is 0 exactly on an intentional no-op (a
Test invocation) or a run of `sonarr_main` that returns normally (a
skip or a successful crop), and every unrecoverable failure terminates
the invocation immediately with exit code 1 and no retry.  Missing
input paths, delete failures and transcode failures write a
warning-level record, but a probe failure does not (its warning call
passes a stray argument, so the record fails to format and is
dropped), and detection failures report through stdout or an uncaught
ValueError traceback rather than the warning log.
-/
theorem exit_code_contract_amended :
    (∀ w : SonarrWorld,
      (script_main w).2 = 0 ↔ (testInvocation w = true ∨ (sonarr_main w).2 = none)) ∧
    (∀ (cw : CropWorld) (s d : PyVal) (wd ht : PyNum), cw.deleteRC > 0 →
      (crop_video cw s d wd ht).2 = some 1 ∧
        ∃ m, Ev.warn m ∈ (crop_video cw s d wd ht).1) ∧
    (∀ (cw : CropWorld) (s d : PyVal) (wd ht : PyNum), cw.deleteRC = 0 → cw.ffmpegRC > 0 →
      (crop_video cw s d wd ht).2 = some 1 ∧
        ∃ m, Ev.warn m ∈ (crop_video cw s d wd ht).1) ∧
    (∀ (w : SonarrWorld) (fp sp : PyVal) (dbr : List ShowRow),
      (w.file_exists fp && w.file_exists sp) = false →
      processVideo w fp sp dbr = ([Ev.warn "Unable to find specified file(s)"], some 1)) ∧
    (∀ (pw : ProbeWorld) (p : PyVal) (wd ht : PyNum), pw.probeRC > 0 →
      check_video_resolution pw p wd ht = ([Ev.probeRun, Ev.warnDropped], Except.error 1)) ∧
    (∀ (dw : DetectWorld) (p : PyVal), dw.detectRC > 0 →
      get_crop_parameters_run dw p =
        ([Ev.wslRun, Ev.detectRun, Ev.printed "cmd failed during get_crop_parameters"],
          Except.error 1)) ∧
    (∀ (dw : DetectWorld) (p : PyVal), dw.detectRC = 0 → dw.candidates = [] →
      get_crop_parameters_run dw p =
        ([Ev.wslRun, Ev.detectRun, Ev.traceback], Except.error 1)) := by
  refine ⟨?_, ?_, ?_, ?_, ?_, ?_, ?_⟩
  · intro w
    by_cases hT : testInvocation w = true
    · rw [script_main_test w hT]
      simp [hT]
    · have hT' : testInvocation w = false := by
        revert hT
        cases testInvocation w <;> simp
      rcases hs : sonarr_main w with ⟨evs, res⟩
      cases res with
      | none =>
        rw [script_main_done w evs hT' hs]
        simp [hs]
      | some c =>
        have hc1 : c = 1 := by
          rcases sonarr_main_code w with h0 | h1
          · rw [hs] at h0
            exact Option.noConfusion h0
          · rw [hs] at h1
            have h1' : some c = some 1 := h1
            exact Option.some_inj.mp h1'
        subst hc1
        rw [script_main_exit w evs 1 hT' hs]
        simp [hT', hs]
  · intro cw s d wd ht h
    exact ⟨by simp [crop_video, h],
      ⟨"Failed to delete existing file", by simp [crop_video, h]⟩⟩
  · intro cw s d wd ht h0 hf
    have h0' : ¬ cw.deleteRC > 0 := by omega
    exact ⟨by simp [crop_video, h0', hf],
      ⟨"cmd failed during crop_video", by simp [crop_video, h0', hf]⟩⟩
  · intro w fp sp dbr h
    exact processVideo_missing w fp sp dbr h
  · intro pw p wd ht h
    simp [check_video_resolution, h]
  · intro dw p h
    simp [get_crop_parameters_run, h]
  · intro dw p h0 hc
    have h0' : ¬ dw.detectRC > 0 := by omega
    simp [get_crop_parameters_run, h0', hc, get_crop_parameters_nil]

/--
Witness for the amended C8 theorem: a failed delete exits 1 with a
warning record, and an empty detection run dies with a traceback and
exit 1.
-/
theorem exit_code_contract_amended_witness :
    ((crop_video ⟨1, 0⟩ (PyVal.str "s") (PyVal.str "d") (PyNum.int 1920) (PyNum.int 800)).2 = some 1 ∧
      ∃ m, Ev.warn m ∈
        (crop_video ⟨1, 0⟩ (PyVal.str "s") (PyVal.str "d") (PyNum.int 1920) (PyNum.int 800)).1) ∧
    get_crop_parameters_run ⟨0, []⟩ (PyVal.str "v") =
      ([Ev.wslRun, Ev.detectRun, Ev.traceback], Except.error 1) :=
  ⟨exit_code_contract_amended.2.1 ⟨1, 0⟩ (PyVal.str "s") (PyVal.str "d")
      (PyNum.int 1920) (PyNum.int 800) (by decide),
   exit_code_contract_amended.2.2.2.2.2.2 ⟨0, []⟩ (PyVal.str "v") rfl rfl⟩

/--
C8, counterexample: a reachable full run — non-Test Sonarr event, both
paths present, empty override table, detection producing no candidate —
terminates with exit code 1 while writing no warning-level record at
all (the failure surfaces as an uncaught ValueError traceback), so it
is not true that every unrecoverable failure also writes a
warning-level log entry.
-/
theorem exit_code_warning_refuted :
    (script_main detectEmptyWorld).2 = 1 ∧
      ((script_main detectEmptyWorld).1.all fun e => !isWarnEv e) = true := by
  decide
